import Mathlib

/-!
Verification development for a Python package that models a Nebula overlay
network: address allocation for nodes, certificate-artifact lifecycle on
the filesystem, configuration composition and serialization, and output
path naming.  Each Python function under scrutiny is shallowly embedded as
an executable Lean definition; IPv4 addresses are natural numbers, Python
`None` is `Option.none`, raised exceptions are explicit error values.
-/

namespace Maloja

/-! ## Data model (`entities.py`)

`NebulaNode` and `NebulaNetwork` are pydantic models.  An IPv4 address is
modelled as a `Nat` (its 32-bit value); `ip = None` on a node means "to be
allocated".  The source restricts `cidr` to the literals 0..32
(`base.CIDRLiteral`); we carry it as a `Nat`.
-/

/-- `config.RoutableIPPort`: a public ip:port endpoint. -/
structure RoutableIPPort where
  ip : Nat
  port : Nat
deriving DecidableEq, Repr

/-- `entities.NebulaNode`: pydantic model with the fields relevant to the
allocation and composition logic (defaults as in the source). -/
structure NebulaNode where
  name : String
  ip : Option Nat := none
  port : Nat := 4242
  am_lighthouse : Bool := false
  public : Option RoutableIPPort := none
deriving DecidableEq, Repr

/-- `entities.NebulaNetwork`: authority name, base address, node list, cidr. -/
structure NebulaNetwork where
  cert_authority : String
  ip : Nat
  nodes : List NebulaNode := []
  cidr : Nat := 24
deriving DecidableEq, Repr

/-! ## Address allocation (`NebulaNetwork.model_post_init`) -/

/-- `ipaddress.ip_network(...).hosts()` for an IPv4 block whose network
address is `base` with prefix length `cidr`: all usable host addresses in
ascending order.  Python semantics: for prefixes 31 and 32 every address of
the block is a host; otherwise the network and broadcast addresses are
excluded. -/
def hostsList (base cidr : Nat) : List Nat :=
  if 31 ≤ cidr then
    (List.range (2 ^ (32 - cidr))).map (fun k => base + k)
  else
    (List.range (2 ^ (32 - cidr) - 2)).map (fun k => base + 1 + k)

/-- The candidate pool computed in `model_post_init`:
`h = set(hosts); for node in nodes: h = h - {node.ip}; hosts = sorted(list(h))`.
Since `hostsList` is strictly increasing and duplicate-free, removing the
explicitly assigned addresses from the set and sorting is the same as
filtering them out of the ascending host list. -/
def availHosts (base cidr : Nat) (nodes : List NebulaNode) : List Nat :=
  (hostsList base cidr).filter (fun a => !(nodes.any (fun nd => nd.ip == some a)))

/-- The allocation loop
`for i, node in enumerate(filter(lambda x: x.ip is None, nodes)): node.ip = hosts[i]`:
walk the nodes in declared order, give each node whose `ip` is unset the
next address of the pool.  Python raises `IndexError` (`hosts[i]`) when the
pool is exhausted before the unset nodes are; this is the `none` result. -/
def assignIPs : List NebulaNode → List Nat → Option (List NebulaNode)
  | [], _ => some []
  | nd :: rest, avail =>
    match nd.ip with
    | some _ =>
      match assignIPs rest avail with
      | some r => some (nd :: r)
      | none => none
    | none =>
      match avail with
      | [] => none
      | a :: avail' =>
        match assignIPs rest avail' with
        | some r => some ({ nd with ip := some a } :: r)
        | none => none

/-- `str.replace(" ", "")`: drop every space character. -/
def stripSpaces (s : String) : String :=
  String.mk (s.data.filter (fun c => c ≠ ' '))

/-- `NebulaNetwork.model_post_init`: sanitize the authority name, then
allocate an address for every node lacking one.  A `none` result is the
`IndexError` escaping the constructor. -/
def model_post_init (net : NebulaNetwork) : Option NebulaNetwork :=
  let net := { net with cert_authority := stripSpaces net.cert_authority }
  match assignIPs net.nodes (availHosts net.ip net.cidr net.nodes) with
  | some ns => some { net with nodes := ns }
  | none => none

/-- Number of nodes whose address is unset. -/
def countUnset (nodes : List NebulaNode) : Nat :=
  (nodes.filter (fun nd => nd.ip.isNone)).length

/-- IPv4 value of a dotted quad. -/
def ipv4 (a b c d : Nat) : Nat := ((a * 256 + b) * 256 + c) * 256 + d

theorem countUnset_nil : countUnset [] = 0 := rfl

theorem countUnset_cons (nd : NebulaNode) (l : List NebulaNode) :
    countUnset (nd :: l) = (if nd.ip.isNone then 1 else 0) + countUnset l := by
  simp only [countUnset, List.filter_cons]
  split <;> simp [Nat.add_comm]

theorem countUnset_sublist {l₁ l₂ : List NebulaNode} (h : l₁.Sublist l₂) :
    countUnset l₁ ≤ countUnset l₂ :=
  (h.filter _).length_le

theorem countUnset_take_mono (l : List NebulaNode) {i j : Nat} (h : i ≤ j) :
    countUnset (l.take i) ≤ countUnset (l.take j) := by
  have : l.take i = (l.take j).take i := by rw [List.take_take, Nat.min_eq_left h]
  rw [this]
  exact countUnset_sublist (List.take_sublist _ _)

theorem countUnset_take_succ {l : List NebulaNode} {i : Nat} {nd : NebulaNode}
    (h : l[i]? = some nd) :
    countUnset (l.take (i + 1)) =
      countUnset (l.take i) + (if nd.ip.isNone then 1 else 0) := by
  rw [List.take_succ]
  simp only [countUnset, List.filter_append, List.length_append]
  congr 1
  rw [h]
  by_cases hip : nd.ip.isNone <;> simp [hip]

/-- Allocation succeeds exactly when the candidate pool is large enough for
the nodes lacking an address. -/
theorem assignIPs_isSome :
    ∀ (nodes : List NebulaNode) (avail : List Nat),
      (assignIPs nodes avail).isSome = true ↔ countUnset nodes ≤ avail.length := by
  intro nodes
  induction nodes with
  | nil => intro avail; simp [assignIPs, countUnset]
  | cons nd rest ih =>
    intro avail
    cases hip : nd.ip with
    | some a =>
      cases hr : assignIPs rest avail with
      | some r =>
        simp [assignIPs, hip, hr, countUnset_cons, ← ih avail]
      | none =>
        simp [assignIPs, hip, hr, countUnset_cons, ← ih avail]
    | none =>
      cases avail with
      | nil =>
        simp [assignIPs, hip, countUnset_cons]
      | cons a avail' =>
        cases hr : assignIPs rest avail' with
        | some r =>
          simp [assignIPs, hip, hr, countUnset_cons, Nat.add_comm 1, ← ih avail']
        | none =>
          simp [assignIPs, hip, hr, countUnset_cons, Nat.add_comm 1, ← ih avail']

/-- Pointwise description of a successful allocation: nodes with an explicit
address pass through unchanged, and the `k`-th node lacking an address (in
declared order) receives the `k`-th element of the candidate pool. -/
theorem assignIPs_spec :
    ∀ (nodes : List NebulaNode) (avail : List Nat) (r : List NebulaNode),
      assignIPs nodes avail = some r →
      r.length = nodes.length ∧
      ∀ i nd, nodes[i]? = some nd →
        (nd.ip.isSome → r[i]? = some nd) ∧
        (nd.ip = none →
          ∃ a, avail[countUnset (nodes.take i)]? = some a ∧
            r[i]? = some { nd with ip := some a }) := by
  intro nodes
  induction nodes with
  | nil =>
    intro avail r h
    simp only [assignIPs] at h
    cases h
    simp
  | cons nd rest ih =>
    intro avail r h
    cases hip : nd.ip with
    | some b =>
      simp only [assignIPs, hip] at h
      cases hr : assignIPs rest avail with
      | some r' =>
        rw [hr] at h
        cases h
        obtain ⟨hlen, hpt⟩ := ih avail r' hr
        refine ⟨by simp [hlen], ?_⟩
        intro i nd' hi
        cases i with
        | zero =>
          simp only [List.getElem?_cons_zero, Option.some.injEq] at hi
          subst hi
          exact ⟨fun _ => by simp, fun hc => by rw [hip] at hc; cases hc⟩
        | succ i =>
          simp only [List.getElem?_cons_succ] at hi ⊢
          have := hpt i nd' hi
          refine ⟨this.1, fun hc => ?_⟩
          obtain ⟨a, ha, hr⟩ := this.2 hc
          refine ⟨a, ?_, hr⟩
          simpa [List.take_succ_cons, countUnset_cons, hip] using ha
      | none => rw [hr] at h; cases h
    | none =>
      cases avail with
      | nil => simp [assignIPs, hip] at h
      | cons a avail' =>
        simp only [assignIPs, hip] at h
        cases hr : assignIPs rest avail' with
        | some r' =>
          rw [hr] at h
          cases h
          obtain ⟨hlen, hpt⟩ := ih avail' r' hr
          refine ⟨by simp [hlen], ?_⟩
          intro i nd' hi
          cases i with
          | zero =>
            simp only [List.getElem?_cons_zero, Option.some.injEq] at hi
            subst hi
            refine ⟨(fun hs => by simp [hip] at hs), fun _ => ?_⟩
            exact ⟨a, by simp [countUnset_nil], by simp⟩
          | succ i =>
            simp only [List.getElem?_cons_succ] at hi ⊢
            have := hpt i nd' hi
            refine ⟨this.1, fun hc => ?_⟩
            obtain ⟨x, hx, hrx⟩ := this.2 hc
            refine ⟨x, ?_, hrx⟩
            rw [List.take_succ_cons, countUnset_cons, hip]
            simpa [Nat.add_comm] using hx
        | none => rw [hr] at h; cases h

theorem hostsList_nodup (base cidr : Nat) : (hostsList base cidr).Nodup := by
  unfold hostsList
  split <;>
  · refine List.Nodup.map ?_ (List.nodup_range _)
    intro a b h
    simp only [] at h
    omega

theorem availHosts_nodup (base cidr : Nat) (nodes : List NebulaNode) :
    (availHosts base cidr nodes).Nodup :=
  (hostsList_nodup base cidr).filter _

/-- Every pool candidate differs from every explicitly pre-set address. -/
theorem mem_availHosts_not_explicit {base cidr : Nat} {nodes : List NebulaNode} {a : Nat}
    (h : a ∈ availHosts base cidr nodes) :
    ∀ nd ∈ nodes, nd.ip ≠ some a := by
  have := (List.mem_filter.mp h).2
  intro nd hnd heq
  simp only [Bool.not_eq_eq_eq_not, Bool.not_true, List.any_eq_false] at this
  have := this nd hnd
  simp [heq] at this

theorem nodup_getElem?_ne {l : List Nat} (h : l.Nodup) {m n : Nat} {a b : Nat}
    (hm : l[m]? = some a) (hn : l[n]? = some b) (hmn : m ≠ n) : a ≠ b := by
  rw [List.getElem?_eq_some] at hm hn
  obtain ⟨hml, hma⟩ := hm
  obtain ⟨hnl, hnb⟩ := hn
  intro hab
  apply hmn
  have : l.get ⟨m, hml⟩ = l.get ⟨n, hnl⟩ := by
    simp only [List.get_eq_getElem, hma, hnb, hab]
  have := List.Nodup.get_inj_iff h |>.mp this
  exact congrArg Fin.val this

/-- The correctness contract of the allocator: the construction succeeds,
explicit nodes pass through unchanged, the `k`-th node lacking an address
receives the `k`-th smallest unassigned host address, assigned addresses
are pairwise distinct and collide with no explicitly pre-set address, and
the allocation depends only on the base address, prefix and node list. -/
def AllocSpec (net : NebulaNetwork) : Prop :=
  ∃ net', model_post_init net = some net' ∧
    net'.cert_authority = stripSpaces net.cert_authority ∧
    net'.ip = net.ip ∧ net'.cidr = net.cidr ∧
    net'.nodes.length = net.nodes.length ∧
    (∀ (i : Nat) (nd : NebulaNode), net.nodes[i]? = some nd → nd.ip.isSome →
      net'.nodes[i]? = some nd) ∧
    (∀ (i : Nat) (nd : NebulaNode), net.nodes[i]? = some nd → nd.ip = none →
      ∃ a, (availHosts net.ip net.cidr net.nodes)[countUnset (net.nodes.take i)]? = some a ∧
        net'.nodes[i]? = some { nd with ip := some a }) ∧
    (∀ (i j : Nat) (ndi ndj ri rj : NebulaNode), i ≠ j →
      net.nodes[i]? = some ndi → ndi.ip = none →
      net.nodes[j]? = some ndj → ndj.ip = none →
      net'.nodes[i]? = some ri → net'.nodes[j]? = some rj →
      ri.ip ≠ rj.ip) ∧
    (∀ (i j : Nat) (ndi ndj ri : NebulaNode), net.nodes[i]? = some ndi → ndi.ip = none →
      net.nodes[j]? = some ndj → ndj.ip.isSome →
      net'.nodes[i]? = some ri → ri.ip ≠ ndj.ip) ∧
    (∀ net₂ : NebulaNetwork, net₂.ip = net.ip → net₂.cidr = net.cidr →
      net₂.nodes = net.nodes →
      (model_post_init net₂).map NebulaNetwork.nodes =
        (model_post_init net).map NebulaNetwork.nodes)

theorem model_post_init_eq (net : NebulaNetwork) :
    model_post_init net =
      match assignIPs net.nodes (availHosts net.ip net.cidr net.nodes) with
      | some ns => some { net with cert_authority := stripSpaces net.cert_authority, nodes := ns }
      | none => none := rfl

/-- C1 (amended): whenever the pool of host addresses *not explicitly
pre-assigned* is at least as large as the set of nodes lacking an address,
construction allocates deterministically, giving the i-th unset node the
i-th smallest unassigned host address, with no collisions. -/
theorem alloc_assigns_lowest_unassigned (net : NebulaNetwork)
    (hcap : countUnset net.nodes ≤ (availHosts net.ip net.cidr net.nodes).length) :
    AllocSpec net := by
  have hsome : (assignIPs net.nodes (availHosts net.ip net.cidr net.nodes)).isSome = true :=
    (assignIPs_isSome _ _).mpr hcap
  obtain ⟨r, hr⟩ := Option.isSome_iff_exists.mp hsome
  obtain ⟨hlen, hpt⟩ := assignIPs_spec _ _ _ hr
  refine ⟨{ net with cert_authority := stripSpaces net.cert_authority, nodes := r }, ?_,
    rfl, rfl, rfl, hlen, ?_, ?_, ?_, ?_, ?_⟩
  · rw [model_post_init_eq, hr]
  · intro i nd hi hs
    exact (hpt i nd hi).1 hs
  · intro i nd hi hn
    exact (hpt i nd hi).2 hn
  · -- assigned addresses are pairwise distinct
    intro i j ndi ndj ri rj hij hi hin hj hjn hri hrj
    obtain ⟨ai, hai, hri'⟩ := (hpt i ndi hi).2 hin
    obtain ⟨aj, haj, hrj'⟩ := (hpt j ndj hj).2 hjn
    rw [hri] at hri'
    rw [hrj] at hrj'
    cases hri'
    cases hrj'
    simp only [Option.some.injEq, ne_eq]
    have hne : countUnset (net.nodes.take i) ≠ countUnset (net.nodes.take j) := by
      rcases Nat.lt_or_ge i j with hlt | hge
      · have h1 : countUnset (net.nodes.take (i + 1)) =
            countUnset (net.nodes.take i) + 1 := by
          rw [countUnset_take_succ hi, hin]
          rfl
        have h2 : countUnset (net.nodes.take (i + 1)) ≤ countUnset (net.nodes.take j) :=
          countUnset_take_mono net.nodes (by omega)
        omega
      · have hlt : j < i := by omega
        have h1 : countUnset (net.nodes.take (j + 1)) =
            countUnset (net.nodes.take j) + 1 := by
          rw [countUnset_take_succ hj, hjn]
          rfl
        have h2 : countUnset (net.nodes.take (j + 1)) ≤ countUnset (net.nodes.take i) :=
          countUnset_take_mono net.nodes (by omega)
        omega
    exact nodup_getElem?_ne (availHosts_nodup _ _ _) hai haj hne
  · -- assigned addresses avoid every explicitly pre-set address
    intro i j ndi ndj ri hi hin hj hjs hri
    obtain ⟨ai, hai, hri'⟩ := (hpt i ndi hi).2 hin
    rw [hri] at hri'
    cases hri'
    have hmem : ai ∈ availHosts net.ip net.cidr net.nodes := by
      rw [List.getElem?_eq_some] at hai
      obtain ⟨hl, ha⟩ := hai
      exact ha ▸ List.getElem_mem _
    have := mem_availHosts_not_explicit hmem ndj (by
      rw [List.getElem?_eq_some] at hj
      obtain ⟨hl, ha⟩ := hj
      exact ha ▸ List.getElem_mem _)
    intro hcontra
    exact this hcontra.symm
  · -- allocation is deterministic and independent of the authority name
    intro net₂ h1 h2 h3
    rw [model_post_init_eq, model_post_init_eq, h1, h2, h3]
    cases assignIPs net.nodes (availHosts net.ip net.cidr net.nodes) <;> simp

/-- The §8 example network: authority "Test CA" over 10.100.100.0/24 with
node A at .5, lighthouse B at .6 with public endpoint 203.0.113.1:4242, and
node C lacking an address. -/
def exNet8 : NebulaNetwork :=
  { cert_authority := "Test CA", ip := ipv4 10 100 100 0, cidr := 24,
    nodes := [ { name := "A", ip := some (ipv4 10 100 100 5) },
               { name := "B", ip := some (ipv4 10 100 100 6), am_lighthouse := true,
                 public := some ⟨ipv4 203 0 113 1, 4242⟩ },
               { name := "C" } ] }

set_option maxRecDepth 40000 in
/-- C1 witness: the §8 network satisfies the capacity hypothesis and hence
the allocation contract; in particular node C receives 10.100.100.1. -/
theorem alloc_assigns_lowest_unassigned_witness :
    countUnset exNet8.nodes ≤ (availHosts exNet8.ip exNet8.cidr exNet8.nodes).length ∧
      AllocSpec exNet8 ∧
      (model_post_init exNet8).map
          (fun n => n.nodes.map (fun nd => (nd.name, nd.ip))) =
        some [("A", some (ipv4 10 100 100 5)), ("B", some (ipv4 10 100 100 6)),
              ("C", some (ipv4 10 100 100 1))] :=
  ⟨by decide, alloc_assigns_lowest_unassigned exNet8 (by decide), by decide⟩

/-- A /30 block with one explicitly placed node and two unset nodes: the
block has two host addresses, as many as there are unset nodes, yet the
construction fails because one host address is already taken. -/
def exC1 : NebulaNetwork :=
  { cert_authority := "T", ip := ipv4 10 0 0 0, cidr := 30,
    nodes := [{ name := "x", ip := some (ipv4 10 0 0 1) }, { name := "y" }, { name := "z" }] }

/-- C1 counterexample: the claim's hypothesis (at least as many host
addresses in the block as nodes lacking an address) holds, yet construction
assigns nothing — it fails with an `IndexError`.  The hypothesis must also
exclude the explicitly pre-assigned addresses. -/
theorem alloc_claim_counterexample :
    countUnset exC1.nodes ≤ (hostsList exC1.ip exC1.cidr).length ∧
      model_post_init exC1 = none := by decide

/-- C2: construction succeeds iff the number of nodes lacking an explicit
address is at most the number of available (unassigned) host addresses;
otherwise the allocator fails and the error surfaces to the caller. -/
theorem alloc_capacity_iff (net : NebulaNetwork) :
    (model_post_init net).isSome = true ↔
      countUnset net.nodes ≤ (availHosts net.ip net.cidr net.nodes).length := by
  rw [model_post_init_eq, ← assignIPs_isSome]
  cases assignIPs net.nodes (availHosts net.ip net.cidr net.nodes) <;> simp

/-! ## Configuration composition (`NebulaNetwork.create_node_cert`) -/

/-- `NebulaNetwork.lighthouses`: the nodes with the lighthouse flag, in
declared order. -/
def lighthouses (nodes : List NebulaNode) : List NebulaNode :=
  nodes.filter (fun n => n.am_lighthouse)

/-- The `static_host_map` contents composed in `create_node_cert`: for a
non-lighthouse node, `dict([(n.ip, [n.public]) for n in self.lighthouses])`;
for a lighthouse, the default empty map. -/
def staticHostMapContents (node : NebulaNode) (nodes : List NebulaNode) :
    List (Option Nat × List (Option RoutableIPPort)) :=
  if !node.am_lighthouse then
    (lighthouses nodes).map (fun n => (n.ip, [n.public]))
  else
    []

/-- C7: a lighthouse node gets an empty static host map; a non-lighthouse
node's static host map has exactly one entry per lighthouse, sending its
address to the singleton list with its declared public endpoint; on the §8
network, nodes A and C map 10.100.100.6 to 203.0.113.1:4242 and lighthouse
B gets the empty map. -/
theorem static_host_map_spec :
    (∀ (nodes : List NebulaNode) (node : NebulaNode), node.am_lighthouse = true →
      staticHostMapContents node nodes = []) ∧
    (∀ (nodes : List NebulaNode) (node : NebulaNode)
      (p : Option Nat × List (Option RoutableIPPort)), node.am_lighthouse = false →
      (p ∈ staticHostMapContents node nodes ↔
        ∃ lh, lh ∈ nodes ∧ lh.am_lighthouse = true ∧ p = (lh.ip, [lh.public]))) ∧
    (model_post_init exNet8).map
        (fun n => n.nodes.map (fun nd => staticHostMapContents nd n.nodes)) =
      some [[(some (ipv4 10 100 100 6), [some ⟨ipv4 203 0 113 1, 4242⟩])],
            [],
            [(some (ipv4 10 100 100 6), [some ⟨ipv4 203 0 113 1, 4242⟩])]] := by
  refine ⟨?_, ?_, ?_⟩
  · intro nodes node h
    simp [staticHostMapContents, h]
  · intro nodes node p h
    simp only [staticHostMapContents, h, Bool.not_false, if_pos, List.mem_map,
      lighthouses, List.mem_filter]
    constructor
    · rintro ⟨lh, ⟨hmem, hflag⟩, rfl⟩
      exact ⟨lh, hmem, hflag, rfl⟩
    · rintro ⟨lh, hmem, hflag, rfl⟩
      exact ⟨lh, ⟨hmem, hflag⟩, rfl⟩
  · decide

/-- C7 witness: on the §8 nodes, the lighthouse B has an empty map and a
non-lighthouse node's map contains B's address mapped to B's endpoint. -/
theorem static_host_map_spec_witness :
    staticHostMapContents { name := "B", am_lighthouse := true } exNet8.nodes = [] ∧
    (((some (ipv4 10 100 100 6) : Option Nat),
        [some (⟨ipv4 203 0 113 1, 4242⟩ : RoutableIPPort)]) ∈
      staticHostMapContents { name := "A" } exNet8.nodes) :=
  ⟨static_host_map_spec.1 exNet8.nodes { name := "B", am_lighthouse := true } rfl,
   (static_host_map_spec.2.1 exNet8.nodes { name := "A" } _ rfl).mpr
     ⟨{ name := "B", ip := some (ipv4 10 100 100 6), am_lighthouse := true,
        public := some ⟨ipv4 203 0 113 1, 4242⟩ }, by decide, rfl, rfl⟩⟩

/-! ## Certificate artifact lifecycle (`io.py`)

`sign_node` and `network_cert` drive an external signing process and use
file existence as the only record of progress.  A filesystem snapshot
tracks the authority artifact set and the artifact set of the node being
signed (the only files these functions touch); directories are out of
scope.  The external `dclient.containers.run` invocation is opaque: we
model it by an oracle saying, per artifact set, whether the invocation
succeeds (writing all three outputs, per the success contract) or raises
after writing some subset of them. -/

/-- The three outputs of one signing operation. -/
inductive Ext
  | crt
  | key
  | png
deriving DecidableEq, Repr

/-- Which of the three files of an artifact set exist on disk. -/
structure ArtSet where
  crt : Bool := false
  key : Bool := false
  png : Bool := false
deriving DecidableEq, Repr

/-- `exist="all"` in `node_outputs` / `ca_outputs`. -/
def ArtSet.all (a : ArtSet) : Bool := a.crt && a.key && a.png

/-- `exist="any"` in `node_outputs` / `ca_outputs`. -/
def ArtSet.any (a : ArtSet) : Bool := a.crt || a.key || a.png

/-- No file exists (the Absent state; also the effect of `rm_exist=True`). -/
def ArtSet.absent : ArtSet := {}

/-- All three files exist (the Complete state). -/
def ArtSet.complete : ArtSet := { crt := true, key := true, png := true }

/-- Some but not all of the three files exist. -/
def ArtSet.mixed (a : ArtSet) : Bool := a.any && !a.all

def ArtSet.union (a b : ArtSet) : ArtSet :=
  { crt := a.crt || b.crt, key := a.key || b.key, png := a.png || b.png }

/-- Filesystem snapshot: authority artifact set and the signed node's
artifact set. -/
structure FS where
  ca : ArtSet
  nd : ArtSet
deriving DecidableEq, Repr

/-- Outcome of one external signing invocation: success writes all three
outputs; failure raises after writing some subset. -/
structure SignRes where
  ok : Bool
  writes : ArtSet := {}
deriving DecidableEq, Repr

/-- The signing oracle: outcome of the authority invocation and of the node
invocation. -/
structure Signer where
  caRes : SignRes
  ndRes : SignRes
deriving DecidableEq, Repr

/-- A file of one of the two artifact sets, as named in error messages. -/
inductive CertFile
  | caFile (e : Ext)
  | ndFile (e : Ext)
deriving DecidableEq, Repr

/-- Exceptions raised by `network_cert` / `sign_node`: the `ValueError`
whose message lists the given file paths, or the re-raised exception of the
external signing process. -/
inductive CertErr
  | missingFiles (files : List CertFile)
  | processFailure
deriving DecidableEq, Repr

/-- Trace events: one external signing invocation, recorded with the
filesystem state at the moment it starts. -/
inductive Event
  | caSign (pre : FS)
  | ndSign (pre : FS)
deriving DecidableEq, Repr

/-- Result of running `network_cert` or `sign_node`: final filesystem,
signing invocations performed, and the exception raised if any. -/
structure RunRes where
  fs : FS
  events : List Event
  err : Option CertErr
deriving DecidableEq, Repr

/-- The three authority paths, as listed by `network_cert`'s ValueError
(`f = ca_outputs(network)` is always the full list). -/
def caAllFiles : List CertFile := [.caFile .crt, .caFile .key, .caFile .png]

/-- The three node paths, as listed by `sign_node`'s ValueError. -/
def ndAllFiles : List CertFile := [.ndFile .crt, .ndFile .key, .ndFile .png]

/-- `io.network_cert(network, overwrite)`: optionally delete the authority
files, then — unless they are all present — either reject a partial set or
run the signing container, re-raising its exception unchanged. -/
def network_cert (sg : Signer) (overwrite : Bool) (fs : FS) : RunRes :=
  let fs := if overwrite then { fs with ca := ArtSet.absent } else fs
  if fs.ca.all then
    { fs := fs, events := [], err := none }
  else if fs.ca.any then
    { fs := fs, events := [], err := some (.missingFiles caAllFiles) }
  else if sg.caRes.ok then
    { fs := { fs with ca := ArtSet.complete }, events := [Event.caSign fs], err := none }
  else
    { fs := { fs with ca := fs.ca.union sg.caRes.writes }, events := [Event.caSign fs],
      err := some .processFailure }

/-- The node phase of `sign_node`, run on the outcome of the authority
phase: if the authority phase raised, its exception propagates; otherwise
optionally delete the node files, then — unless all are present — either
reject a partial node set or run the signing container, re-raising its
exception unchanged. -/
def sign_node_nd (sg : Signer) (overwrite : Bool) (r : RunRes) : RunRes :=
  match r.err with
  | some _ => r
  | none =>
    let fs₁ := if overwrite then { r.fs with nd := ArtSet.absent } else r.fs
    if fs₁.nd.all then
      { fs := fs₁, events := r.events, err := none }
    else if fs₁.nd.any then
      { fs := fs₁, events := r.events, err := some (.missingFiles ndAllFiles) }
    else if sg.ndRes.ok then
      { fs := { fs₁ with nd := ArtSet.complete }, events := r.events ++ [Event.ndSign fs₁],
        err := none }
    else
      { fs := { fs₁ with nd := fs₁.nd.union sg.ndRes.writes },
        events := r.events ++ [Event.ndSign fs₁], err := some .processFailure }

/-- `io.sign_node(network, node, overwrite)`: ensure the authority first
(`network_cert` with its default `overwrite=False`), then run the node
phase. -/
def sign_node (sg : Signer) (overwrite : Bool) (fs : FS) : RunRes :=
  sign_node_nd sg overwrite (network_cert sg false fs)

/-- The node files actually missing from the node artifact set — what the
spec demands the integrity error name. -/
def ndMissingFiles (a : ArtSet) : List CertFile :=
  (if a.crt then [] else [CertFile.ndFile Ext.crt]) ++
    (if a.key then [] else [CertFile.ndFile Ext.key]) ++
      (if a.png then [] else [CertFile.ndFile Ext.png])

theorem network_cert_nd_unchanged (sg : Signer) (ow : Bool) (fs : FS) :
    (network_cert sg ow fs).fs.nd = fs.nd := by
  simp only [network_cert]
  split_ifs <;> rfl

theorem network_cert_no_ndSign (sg : Signer) (ow : Bool) (fs pre : FS) :
    Event.ndSign pre ∉ (network_cert sg ow fs).events := by
  simp only [network_cert]
  split_ifs <;> simp

theorem network_cert_ok_ca_complete {sg : Signer} {ow : Bool} {fs : FS}
    (h : (network_cert sg ow fs).err = none) :
    (network_cert sg ow fs).fs.ca.all = true := by
  simp only [network_cert] at h ⊢
  split_ifs at h ⊢ <;>
    first
      | assumption
      | rfl

theorem network_cert_noop {sg : Signer} {fs : FS} (h : fs.ca.all = true) :
    network_cert sg false fs = { fs := fs, events := [], err := none } := by
  simp [network_cert, h]

theorem network_cert_mixed {sg : Signer} {fs : FS} (h : fs.ca.mixed = true) :
    network_cert sg false fs =
      { fs := fs, events := [], err := some (.missingFiles caAllFiles) } := by
  simp only [ArtSet.mixed, Bool.and_eq_true, Bool.not_eq_true'] at h
  simp [network_cert, h.1, h.2]

theorem sign_node_nd_ndSign {sg : Signer} {ow : Bool} {r : RunRes} {pre : FS}
    (h : Event.ndSign pre ∈ (sign_node_nd sg ow r).events) :
    Event.ndSign pre ∈ r.events ∨ pre.ca = r.fs.ca := by
  rcases r with ⟨fs, ev, err⟩
  cases err with
  | some e => exact Or.inl h
  | none =>
    simp only [sign_node_nd] at h
    split_ifs at h <;>
      simp only [List.mem_append, List.mem_singleton] at h <;>
      first
        | exact Or.inl h
        | (rcases h with h | h
           · exact Or.inl h
           · cases h
             exact Or.inr rfl)

theorem sign_node_nd_err_some {sg : Signer} {ow : Bool} {r : RunRes}
    (h : r.err.isSome = true) : sign_node_nd sg ow r = r := by
  rcases r with ⟨fs, ev, err⟩
  cases err with
  | some e => rfl
  | none => simp at h

/-- C5: in every execution of `sign_node`, whenever the node signing
process is invoked, the authority artifact set is complete in the
filesystem state at that moment — `sign_node` first (idempotently) runs
`network_cert` and propagates its failure without touching the node. -/
theorem node_sign_requires_ca_complete (sg : Signer) (ow : Bool) (fs pre : FS)
    (h : Event.ndSign pre ∈ (sign_node sg ow fs).events) :
    pre.ca.all = true := by
  rcases sign_node_nd_ndSign h with hmem | hca
  · exact absurd hmem (network_cert_no_ndSign sg false fs pre)
  · cases herr : (network_cert sg false fs).err with
    | some e =>
      rw [sign_node, sign_node_nd_err_some (by rw [herr]; rfl)] at h
      exact absurd h (network_cert_no_ndSign sg false fs pre)
    | none =>
      rw [hca]
      exact network_cert_ok_ca_complete herr

theorem sign_node_nd_mixed {sg : Signer} {r : RunRes} (herr : r.err = none)
    (hmix : r.fs.nd.mixed = true) :
    sign_node_nd sg false r =
      { fs := r.fs, events := r.events, err := some (.missingFiles ndAllFiles) } := by
  rcases r with ⟨fs, ev, err⟩
  cases err with
  | some e => cases herr
  | none =>
    simp only [ArtSet.mixed, Bool.and_eq_true, Bool.not_eq_true'] at hmix
    simp [sign_node_nd, hmix.1, hmix.2]

theorem sign_node_nd_all {sg : Signer} {r : RunRes} (herr : r.err = none)
    (hall : r.fs.nd.all = true) :
    sign_node_nd sg false r = { fs := r.fs, events := r.events, err := none } := by
  rcases r with ⟨fs, ev, err⟩
  cases err with
  | some e => cases herr
  | none => simp [sign_node_nd, hall]

theorem sign_node_nd_ok_complete {sg : Signer} {ow : Bool} {r : RunRes}
    (herr : r.err = none) (h : (sign_node_nd sg ow r).err = none) :
    (sign_node_nd sg ow r).fs.ca = r.fs.ca ∧
      (sign_node_nd sg ow r).fs.nd.all = true := by
  rcases r with ⟨fs, ev, err⟩
  cases err with
  | some e => cases herr
  | none =>
    simp only [sign_node_nd] at h ⊢
    split_ifs at h ⊢ <;>
      (try simp at h) <;>
      refine ⟨rfl, ?_⟩ <;>
      first
        | assumption
        | rfl

theorem sign_node_ok_complete {sg : Signer} {fs : FS}
    (h : (sign_node sg false fs).err = none) :
    (sign_node sg false fs).fs.ca.all = true ∧
      (sign_node sg false fs).fs.nd.all = true := by
  cases herr : (network_cert sg false fs).err with
  | some e =>
    rw [sign_node, sign_node_nd_err_some (by rw [herr]; rfl), herr] at h
    cases h
  | none =>
    rw [sign_node] at h ⊢
    obtain ⟨hca, hnd⟩ := sign_node_nd_ok_complete herr h
    exact ⟨by rw [hca]; exact network_cert_ok_ca_complete herr, hnd⟩

/-- C3 counterexample: with the node artifact set holding only its `.crt`
(so `.key` and `.png` are the missing files), the request raises a
ValueError naming all three node files — not exactly the missing two. -/
theorem partial_artifacts_reject_counterexample :
    sign_node { caRes := { ok := true }, ndRes := { ok := true } } false
        { ca := ArtSet.complete, nd := { crt := true } } =
      { fs := { ca := ArtSet.complete, nd := { crt := true } }, events := [],
        err := some (.missingFiles ndAllFiles) } ∧
      ndMissingFiles { crt := true } = [.ndFile .key, .ndFile .png] ∧
      ndAllFiles ≠ ndMissingFiles { crt := true } := by decide

/-- C3 (amended): a signing request on a Partial artifact set without the
overwrite flag raises a data-integrity ValueError, performs no signing
invocation for that set and deletes or creates none of that set's files;
the error message lists all three file paths of the set (the missing ones
among them), not exactly the missing files. -/
theorem partial_artifacts_reject (sg : Signer) (fs : FS) :
    (fs.ca.mixed = true →
      network_cert sg false fs =
        { fs := fs, events := [], err := some (.missingFiles caAllFiles) }) ∧
    (fs.nd.mixed = true → fs.ca.all = true →
      sign_node sg false fs =
        { fs := fs, events := [], err := some (.missingFiles ndAllFiles) }) ∧
    (fs.nd.mixed = true →
      (sign_node sg false fs).err.isSome = true ∧
      (sign_node sg false fs).fs.nd = fs.nd ∧
      ∀ pre, Event.ndSign pre ∉ (sign_node sg false fs).events) := by
  refine ⟨network_cert_mixed, ?_, ?_⟩
  · intro hmix hca
    rw [sign_node, network_cert_noop hca, sign_node_nd_mixed rfl hmix]
  · intro hmix
    cases herr : (network_cert sg false fs).err with
    | some e =>
      rw [sign_node, sign_node_nd_err_some (by rw [herr]; rfl)]
      exact ⟨by rw [herr]; rfl, network_cert_nd_unchanged sg false fs,
        fun pre => network_cert_no_ndSign sg false fs pre⟩
    | none =>
      have hnd := network_cert_nd_unchanged sg false fs
      rw [sign_node, sign_node_nd_mixed herr (by rw [hnd]; exact hmix)]
      exact ⟨rfl, hnd, fun pre => network_cert_no_ndSign sg false fs pre⟩

/-- C3 witness: a Partial authority set and a Partial node set are both
rejected with the ValueError listing the set's three files. -/
theorem partial_artifacts_reject_witness :
    network_cert { caRes := { ok := true }, ndRes := { ok := true } } false
        { ca := { crt := true }, nd := ArtSet.absent } =
      { fs := { ca := { crt := true }, nd := ArtSet.absent }, events := [],
        err := some (.missingFiles caAllFiles) } ∧
      sign_node { caRes := { ok := false }, ndRes := { ok := false } } false
        { ca := ArtSet.complete, nd := { png := true } } =
        { fs := { ca := ArtSet.complete, nd := { png := true } }, events := [],
          err := some (.missingFiles ndAllFiles) } :=
  ⟨(partial_artifacts_reject { caRes := { ok := true }, ndRes := { ok := true } }
      { ca := { crt := true }, nd := ArtSet.absent }).1 (by decide),
   (partial_artifacts_reject { caRes := { ok := false }, ndRes := { ok := false } }
      { ca := ArtSet.complete, nd := { png := true } }).2.1 (by decide) (by decide)⟩

/-- C4: from a Complete node artifact set, a request without the overwrite
flag performs no node signing and leaves the node files unchanged; with the
overwrite flag the three files are deleted first and signing proceeds as
from Absent; and after any successful `sign_node`, running it again without
overwrite returns the very same filesystem with no signing invocation. -/
theorem complete_artifacts_noop (sg : Signer) (fs : FS) :
    (fs.nd.all = true →
      (sign_node sg false fs).fs.nd = fs.nd ∧
      ∀ pre, Event.ndSign pre ∉ (sign_node sg false fs).events) ∧
    (fs.nd.all = true → fs.ca.all = true → sg.ndRes.ok = true →
      sign_node sg true fs =
        { fs := { fs with nd := ArtSet.complete },
          events := [Event.ndSign { fs with nd := ArtSet.absent }], err := none }) ∧
    ((sign_node sg false fs).err = none →
      sign_node sg false (sign_node sg false fs).fs =
        { fs := (sign_node sg false fs).fs, events := [], err := none }) := by
  refine ⟨?_, ?_, ?_⟩
  · intro hall
    cases herr : (network_cert sg false fs).err with
    | some e =>
      rw [sign_node, sign_node_nd_err_some (by rw [herr]; rfl)]
      exact ⟨network_cert_nd_unchanged sg false fs,
        fun pre => network_cert_no_ndSign sg false fs pre⟩
    | none =>
      have hnd := network_cert_nd_unchanged sg false fs
      rw [sign_node, sign_node_nd_all herr (by rw [hnd]; exact hall)]
      exact ⟨hnd, fun pre => network_cert_no_ndSign sg false fs pre⟩
  · intro _ hca hok
    rw [sign_node, network_cert_noop hca]
    simp [sign_node_nd, hok, ArtSet.absent, ArtSet.all, ArtSet.any]
  · intro hok
    obtain ⟨hca, hnd⟩ := sign_node_ok_complete hok
    rw [sign_node, network_cert_noop hca]
    exact @sign_node_nd_all sg
      { fs := (sign_node sg false fs).fs, events := [], err := none } rfl hnd

/-- C4 witness: on a Complete filesystem a plain request changes nothing;
with overwrite the node set is re-signed from Absent; and a successful
first signing makes the second request a strict no-op. -/
theorem complete_artifacts_noop_witness :
    ((sign_node { caRes := { ok := true }, ndRes := { ok := true } } false
          { ca := ArtSet.complete, nd := ArtSet.complete }).fs.nd = ArtSet.complete ∧
      ∀ pre, Event.ndSign pre ∉
        (sign_node { caRes := { ok := true }, ndRes := { ok := true } } false
          { ca := ArtSet.complete, nd := ArtSet.complete }).events) ∧
      sign_node { caRes := { ok := true }, ndRes := { ok := true } } true
          { ca := ArtSet.complete, nd := ArtSet.complete } =
        { fs := { ca := ArtSet.complete, nd := ArtSet.complete },
          events := [Event.ndSign { ca := ArtSet.complete, nd := ArtSet.absent }],
          err := none } ∧
      sign_node { caRes := { ok := true }, ndRes := { ok := true } } false
          (sign_node { caRes := { ok := true }, ndRes := { ok := true } } false
            { ca := ArtSet.absent, nd := ArtSet.absent }).fs =
        { fs := (sign_node { caRes := { ok := true }, ndRes := { ok := true } } false
            { ca := ArtSet.absent, nd := ArtSet.absent }).fs,
          events := [], err := none } :=
  ⟨(complete_artifacts_noop { caRes := { ok := true }, ndRes := { ok := true } }
      { ca := ArtSet.complete, nd := ArtSet.complete }).1 (by decide),
   (complete_artifacts_noop { caRes := { ok := true }, ndRes := { ok := true } }
      { ca := ArtSet.complete, nd := ArtSet.complete }).2.1 (by decide) (by decide) (by decide),
   (complete_artifacts_noop { caRes := { ok := true }, ndRes := { ok := true } }
      { ca := ArtSet.absent, nd := ArtSet.absent }).2.2 (by decide)⟩

/-- C6 (code-bug evidence): when the external signing process fails after
writing only the `.crt` output, both `network_cert` and `sign_node`
re-raise the exception without any cleanup, leaving the artifact set in the
Partial state — the code never removes partially written outputs. -/
theorem failed_signing_leaves_partial_files :
    network_cert
        { caRes := { ok := false, writes := { crt := true } },
          ndRes := { ok := false, writes := { crt := true } } } false
        { ca := ArtSet.absent, nd := ArtSet.absent } =
      { fs := { ca := { crt := true }, nd := ArtSet.absent },
        events := [Event.caSign { ca := ArtSet.absent, nd := ArtSet.absent }],
        err := some .processFailure } ∧
      ArtSet.mixed { crt := true } = true ∧
      sign_node
          { caRes := { ok := true }, ndRes := { ok := false, writes := { crt := true } } }
          false { ca := ArtSet.complete, nd := ArtSet.absent } =
        { fs := { ca := ArtSet.complete, nd := { crt := true } },
          events := [Event.ndSign { ca := ArtSet.complete, nd := ArtSet.absent }],
          err := some .processFailure } := by decide

/-! ## Serialization default-suppression (`base.py`)

`SkipNoneField.model_skip_none` serializes a pydantic model by iterating
its `(field name, value)` pairs and dropping a field iff its value is
`None` *and* its name is listed in the model's `_skip`.  Python values as
they appear in the models are represented by `PyVal`. -/

/-- A Python field value: `None`, a string, a bool, an int, or a list of
strings (the value domain of the `Pki` model's fields). -/
inductive PyVal
  | pyNone
  | pyStr (s : String)
  | pyBool (b : Bool)
  | pyInt (n : Int)
  | pyStrList (l : List String)
deriving DecidableEq, Repr

/-- `base._do_skip_none`: keep a field iff `(value is not None) or (name
not in _skip)`. -/
def do_skip_none (fields : List (String × PyVal)) (skip : List String) :
    List (String × PyVal) :=
  fields.filter (fun f => !(f.2 == PyVal.pyNone) || !(skip.contains f.1))

/-- `config.Pki`: the representative `SkipNoneField` model (defaults as in
the source: `blocklist=None`, `disconnect_invalid=True`). -/
structure Pki where
  ca : String
  cert : String
  key : String
  blocklist : Option (List String) := none
  disconnect_invalid : Option Bool := some true
deriving DecidableEq, Repr

/-- `Pki._skip`. -/
def pkiSkip : List String := ["blocklist", "disconnect_invalid"]

/-- Pydantic iteration over a `Pki` instance: its fields in declaration
order with their values. -/
def pkiFields (p : Pki) : List (String × PyVal) :=
  [("ca", PyVal.pyStr p.ca), ("cert", PyVal.pyStr p.cert), ("key", PyVal.pyStr p.key),
   ("blocklist", match p.blocklist with
      | none => PyVal.pyNone
      | some l => PyVal.pyStrList l),
   ("disconnect_invalid", match p.disconnect_invalid with
      | none => PyVal.pyNone
      | some b => PyVal.pyBool b)]

/-- C8: a field survives serialization iff it is in the model and (its
value is not `None`, or it is not marked skippable).  Hence a skippable
field that is unset (`None`) is omitted, every non-skippable field is
emitted whatever its value, and a skippable field carrying a non-`None`
value — even a falsy one such as `False` or the empty list — is emitted.
Concretely on `Pki`: the unset `blocklist` key is omitted, while
`disconnect_invalid=False` and `blocklist=[]` are both emitted. -/
theorem skip_none_spec :
    (∀ (fields : List (String × PyVal)) (skip : List String) (f : String × PyVal),
      f ∈ do_skip_none fields skip ↔
        f ∈ fields ∧ (f.2 ≠ PyVal.pyNone ∨ f.1 ∉ skip)) ∧
    (∀ a c k : String,
      "blocklist" ∉
        (do_skip_none (pkiFields { ca := a, cert := c, key := k }) pkiSkip).map Prod.fst) ∧
    (∀ a c k : String,
      ("disconnect_invalid", PyVal.pyBool false) ∈
        do_skip_none
          (pkiFields { ca := a, cert := c, key := k, disconnect_invalid := some false })
          pkiSkip) ∧
    (∀ a c k : String,
      ("blocklist", PyVal.pyStrList []) ∈
        do_skip_none
          (pkiFields { ca := a, cert := c, key := k, blocklist := some [] }) pkiSkip) := by
  refine ⟨?_, ?_, ?_, ?_⟩
  · intro fields skip f
    simp [do_skip_none, List.mem_filter, List.elem_iff, Decidable.imp_iff_not_or]
  · intro a c k
    simp [do_skip_none, pkiFields, pkiSkip]
  · intro a c k
    simp [do_skip_none, pkiFields, pkiSkip]
  · intro a c k
    simp [do_skip_none, pkiFields, pkiSkip]

/-- C8 witness: concrete `Pki` values showing the unset skippable key is
omitted while the falsy-valued skippable keys are emitted. -/
theorem skip_none_spec_witness :
    ("blocklist" ∉
      (do_skip_none (pkiFields { ca := "x", cert := "y", key := "z" }) pkiSkip).map
        Prod.fst) ∧
      ("disconnect_invalid", PyVal.pyBool false) ∈
        do_skip_none
          (pkiFields { ca := "x", cert := "y", key := "z", disconnect_invalid := some false })
          pkiSkip ∧
      ("blocklist", PyVal.pyStrList []) ∈
        do_skip_none (pkiFields { ca := "x", cert := "y", key := "z", blocklist := some [] })
          pkiSkip :=
  ⟨skip_none_spec.2.1 "x" "y" "z", skip_none_spec.2.2.1 "x" "y" "z",
   skip_none_spec.2.2.2 "x" "y" "z"⟩

/-- C5 witness: starting from an entirely absent filesystem with a signer
that succeeds, the node invocation happens on a state whose authority set
is complete. -/
theorem node_sign_requires_ca_complete_witness :
    Event.ndSign { ca := ArtSet.complete, nd := ArtSet.absent } ∈
        (sign_node { caRes := { ok := true }, ndRes := { ok := true } } false
          { ca := ArtSet.absent, nd := ArtSet.absent }).events ∧
      ({ ca := ArtSet.complete, nd := ArtSet.absent } : FS).ca.all = true :=
  ⟨by decide,
   node_sign_requires_ca_complete { caRes := { ok := true }, ndRes := { ok := true } } false
     { ca := ArtSet.absent, nd := ArtSet.absent }
     { ca := ArtSet.complete, nd := ArtSet.absent } (by decide)⟩

/-! ## Output path naming (`io.py` templates, `entities._NebulaTempFiles`) -/

/-- `io.NODE_CONFIG_TEMPLATE = "{name}.yaml"` applied to a node name. -/
def nodeConfigFilename (name : String) : String := name ++ ".yaml"

/-- `io.NODE_COMPOSE_TEMPLATE = "{name}_docker-compose.yml"` applied to a
node name. -/
def nodeComposeFilename (name : String) : String := name ++ "_docker-compose.yml"

/-- `_NebulaTempFiles.dir`: `os.path.abspath(cert_authority)`, modelled as
the working directory joined with the (sanitized, separator-free)
authority name. -/
def tempDirPath (cwd ca : String) : String := cwd ++ "/" ++ ca

/-- `_NebulaTempFiles.node_config(node)`: `f"{dir}/{name}.yaml"`. -/
def node_config (cwd ca name : String) : String :=
  tempDirPath cwd ca ++ "/" ++ nodeConfigFilename name

/-- `_NebulaTempFiles.node_compose(node)`: `f"{dir}/{name}_docker-compose.yml"`. -/
def node_compose (cwd ca name : String) : String :=
  tempDirPath cwd ca ++ "/" ++ nodeComposeFilename name

/-- The string `s` ends in `suf`. -/
def endsIn (s suf : String) : Prop := suf.data <:+ s.data

theorem string_data_append (s t : String) : (s ++ t).data = s.data ++ t.data := rfl

/-- C9 (amended): the per-node configuration path ends in `{name}.yaml`
and the per-node composition descriptor path ends in
`{name}_docker-compose.yml` (not `{name}_compose.yml`); both are derived
deterministically from the node name within the network output directory. -/
theorem node_paths_spec (cwd ca n : String) :
    endsIn (node_config cwd ca n) (n ++ ".yaml") ∧
      endsIn (node_compose cwd ca n) (n ++ "_docker-compose.yml") := by
  constructor
  · exact ⟨(tempDirPath cwd ca ++ "/").data, by
      simp [node_config, nodeConfigFilename, string_data_append, List.append_assoc]⟩
  · exact ⟨(tempDirPath cwd ca ++ "/").data, by
      simp [node_compose, nodeComposeFilename, string_data_append, List.append_assoc]⟩

/-- C9 counterexample: for a node named `a` the composition descriptor path
is `.../a_docker-compose.yml`, which does not end in `a_compose.yml` as the
claim states. -/
theorem node_paths_claim_counterexample :
    ¬ endsIn (node_compose "/w" "ca" "a") ("a" ++ "_compose.yml") := by
  show ¬ ("a" ++ "_compose.yml").data <:+ (node_compose "/w" "ca" "a").data
  decide

/-! ## Node filtering (`NebulaNetwork.get_nodes`, `io.save_config`)

`get_nodes(self, filter=None)` names its parameter `filter`, shadowing the
builtin; its non-`None` branch evaluates
`list(filter(lambda n: filter in n.name, self.nodes))`, thereby calling
the passed value — a string at every call site — as a function, which in
Python raises `TypeError: 'str' object is not callable` before any node is
inspected.  The embedding records that semantics. -/

/-- Exception raised when the shadowed name is applied. -/
inductive PyErr
  | typeError
deriving DecidableEq, Repr

/-- `NebulaNetwork.get_nodes(filter)`. -/
def get_nodes (nodes : List NebulaNode) (filt : Option String) :
    Except PyErr (List NebulaNode) :=
  match filt with
  | none => Except.ok nodes
  | some _ => Except.error PyErr.typeError

/-- `io.save_config(network, node)` as forced by `save_node_configs`'s list
comprehension: for a node argument it sets `name = node.name` and calls
`network.get_nodes(name)`; with `node=None` it calls `get_nodes(None)` and
dumps every node's config, yielding here the list of nodes dumped. -/
def save_config (nodes : List NebulaNode) (node : Option NebulaNode) :
    Except PyErr (List NebulaNode) :=
  match node with
  | some nd => get_nodes nodes (some nd.name)
  | none => get_nodes nodes none

/-- C10: `get_nodes` succeeds only with `filter=None`, returning the full
node list; every non-`None` (string) filter raises `TypeError`, so
selecting a subset of nodes by name substring never succeeds, and
`save_config` invoked with a specific node also fails. -/
theorem get_nodes_filter_spec :
    (∀ nodes : List NebulaNode, get_nodes nodes none = Except.ok nodes) ∧
    (∀ (nodes : List NebulaNode) (s : String),
      get_nodes nodes (some s) = Except.error PyErr.typeError) ∧
    (∀ (nodes : List NebulaNode) (nd : NebulaNode),
      save_config nodes (some nd) = Except.error PyErr.typeError) :=
  ⟨fun _ => rfl, fun _ _ => rfl, fun _ _ => rfl⟩

end Maloja
